import Mathlib

/-!
The optox `Pad2dOperator`: embedding and verified properties.

Source: `src/operators/pad2d_operator.h`.

* C++ `int` values are integers; the result of the `int` addition in
  `paddingX` / `paddingY` is reduced to the 32-bit two's complement range by
  `wrapInt32`.
* C++ `unsigned int` arities are natural numbers.
* A constructor that may throw returns `Except OptoxError _`.
* A member function that could touch the object is also given in
  state-passing form (`Pad2dOperator.call`): it returns its value together
  with the object after the call.
-/

namespace optox

/-! ## Data model -/

/-- Boundary modes, `enum PaddingMode {symmetric, reflect, replicate}`. -/
inductive PaddingMode where
  | symmetric
  | reflect
  | replicate
  deriving DecidableEq

/-- Modelled from the spec: the exception raised by `THROW_OPTOXEXCEPTION`
(the macro and the exception class are declared outside the inspected header),
classified by the error taxonomy of the specification: configuration error
(carrying the message text given to the macro), arity error, shape error. -/
inductive OptoxError where
  | configuration (msg : String)
  | arity
  | shape
  deriving DecidableEq

/-- Smallest value of a 32-bit `int`. -/
def INT_MIN : Int := -2147483648

/-- Largest value of a 32-bit `int`. -/
def INT_MAX : Int := 2147483647

/-- Reduction of an integer to the 32-bit two's complement range
(arithmetic modulo `2^32`, representative in `[-2^31, 2^31)`). -/
def wrapInt32 (z : Int) : Int := (z + 2147483648) % 4294967296 - 2147483648

/-- The `int` addition `a + b` of the machine. -/
def addInt32 (a b : Int) : Int := wrapInt32 (a + b)

/-- The private fields of `Pad2dOperator<T>`:
`int left_; int right_; int top_; int bottom_; PaddingMode mode_;`. -/
structure Pad2dOperator where
  left_ : Int
  right_ : Int
  top_ : Int
  bottom_ : Int
  mode_ : PaddingMode
  deriving DecidableEq

/-- The constructor
`Pad2dOperator(int left, int right, int top, int bottom, const std::string &mode)`:
the four margins are stored as given by the member initialisers, then the
mode string is compared with the three literals in turn; any other string
throws `"Pad2dOperator: invalid mode!"`.  The base-class constructor
`IOperator()` (in `ioperator.h`, not among the inspected sources) is taken to
return normally. -/
def Pad2dOperator.construct (left right top bottom : Int) (mode : String) :
    Except OptoxError Pad2dOperator :=
  if mode = "symmetric" then
    .ok { left_ := left, right_ := right, top_ := top, bottom_ := bottom,
          mode_ := PaddingMode.symmetric }
  else if mode = "reflect" then
    .ok { left_ := left, right_ := right, top_ := top, bottom_ := bottom,
          mode_ := PaddingMode.reflect }
  else if mode = "replicate" then
    .ok { left_ := left, right_ := right, top_ := top, bottom_ := bottom,
          mode_ := PaddingMode.replicate }
  else
    .error (OptoxError.configuration "Pad2dOperator: invalid mode!")

/-- Member `int paddingX() const`: `return this->left_ + this->right_;`. -/
def Pad2dOperator.paddingX (op : Pad2dOperator) : Int :=
  addInt32 op.left_ op.right_

/-- Member `int paddingY() const`: `return this->top_ + this->bottom_;`. -/
def Pad2dOperator.paddingY (op : Pad2dOperator) : Int :=
  addInt32 op.top_ op.bottom_

/-- Member `unsigned int getNumOutputsForward()`: `return 1;`. -/
def Pad2dOperator.getNumOutputsForward (_op : Pad2dOperator) : Nat := 1

/-- Member `unsigned int getNumInputsForward()`: `return 1;`. -/
def Pad2dOperator.getNumInputsForward (_op : Pad2dOperator) : Nat := 1

/-- Member `unsigned int getNumOutputsAdjoint()`: `return 1;`. -/
def Pad2dOperator.getNumOutputsAdjoint (_op : Pad2dOperator) : Nat := 1

/-- Member `unsigned int getNumInputsAdjoint()`: `return 1;`. -/
def Pad2dOperator.getNumInputsAdjoint (_op : Pad2dOperator) : Nat := 1

/-- The query member functions of the header. -/
inductive Query where
  | paddingX
  | paddingY
  | getNumOutputsForward
  | getNumInputsForward
  | getNumOutputsAdjoint
  | getNumInputsAdjoint
  deriving DecidableEq

/-- One call of a query member function in state-passing form: the returned
value and the object after the call.  No body in the header assigns a field,
so the object is handed back as it was received. -/
def Pad2dOperator.call (q : Query) (op : Pad2dOperator) : Int × Pad2dOperator :=
  match q with
  | .paddingX => (op.paddingX, op)
  | .paddingY => (op.paddingY, op)
  | .getNumOutputsForward => ((op.getNumOutputsForward : Int), op)
  | .getNumInputsForward => ((op.getNumInputsForward : Int), op)
  | .getNumOutputsAdjoint => ((op.getNumOutputsAdjoint : Int), op)
  | .getNumInputsAdjoint => ((op.getNumInputsAdjoint : Int), op)

/-- The object after a sequence of query calls, made in list order. -/
def Pad2dOperator.callAll (qs : List Query) (op : Pad2dOperator) : Pad2dOperator :=
  qs.foldl (fun o q => (o.call q).2) op

/-! ## The padding transforms

The bodies of `computeForward` / `computeAdjoint` and the base class
`IOperator` are not part of the inspected header; they are modelled from the
specification of the operator. -/

/-- Modelled from the spec: index folding of `replicate` mode (the index
function is part of the missing body of `computeForward`): "clamp row/col
index into `[0, n-1]`". -/
def clampIndex (n : Nat) (k : Int) : Nat :=
  if k < 0 then 0 else if (n : Int) ≤ k then n - 1 else k.toNat

/-- Modelled from the spec: index folding of `reflect` mode (part of the
missing body of `computeForward`): mirror across the edge without repeating
the edge sample, periodic with period `2 (n - 1)`; an axis of extent one has
only its single sample to offer. -/
def reflectIndex (n : Nat) (k : Int) : Nat :=
  if n ≤ 1 then 0
  else
    let r := (k % (2 * ((n : Int) - 1))).toNat
    if r < n then r else 2 * (n - 1) - r

/-- Modelled from the spec: index folding of `symmetric` mode (part of the
missing body of `computeForward`): mirror across the edge including the edge
sample (mirror about the half-integer boundary), periodic with period `2 n`. -/
def symmetricIndex (n : Nat) (k : Int) : Nat :=
  let r := (k % (2 * (n : Int))).toNat
  if r < n then r else 2 * n - 1 - r

/-- Modelled from the spec: the per-mode selection of the index-folding
formula (part of the missing body of `computeForward`). -/
def foldIndex (mode : PaddingMode) (n : Nat) (k : Int) : Nat :=
  match mode with
  | .symmetric => symmetricIndex n k
  | .reflect => reflectIndex n k
  | .replicate => clampIndex n k

section Transforms

variable {R : Type} [CommSemiring R]

/-- Read of an `H × W` image at a row and column given as numbers; a position
outside the image has no sample and reads as zero. -/
def readAt {H W : Nat} (x : Fin H → Fin W → R) (r c : Nat) : R :=
  if h : r < H ∧ c < W then x ⟨r, h.1⟩ ⟨c, h.2⟩ else 0

/-- Modelled from the spec: the forward transform of the missing body of
`Pad2dOperator::computeForward` on one `H × W` image.  The output has height
`H + top + bottom` and width `W + left + right`; each interior element maps
unchanged to position `(r + top, c + left)`; each border element is filled
from the interior element at the folded row and column index. -/
def padForward (mode : PaddingMode) (left right top bottom : Nat) {H W : Nat}
    (x : Fin H → Fin W → R) :
    Fin (H + top + bottom) → Fin (W + left + right) → R :=
  fun i j =>
    if h : (top ≤ i.val ∧ i.val < top + H) ∧ (left ≤ j.val ∧ j.val < left + W) then
      x ⟨i.val - top, by omega⟩ ⟨j.val - left, by omega⟩
    else
      readAt x (foldIndex mode H ((i.val : Int) - (top : Int)))
        (foldIndex mode W ((j.val : Int) - (left : Int)))

/-- Modelled from the spec: the adjoint transform of the missing body of
`Pad2dOperator::computeAdjoint` on one padded image.  Each interior position
accumulates the incoming gradient from its own output position
`(r + top, c + left)` first, then the gradient from every border output
position that the forward pass filled by copying that interior position. -/
def padAdjoint (mode : PaddingMode) (left right top bottom : Nat) {H W : Nat}
    (y : Fin (H + top + bottom) → Fin (W + left + right) → R) :
    Fin H → Fin W → R :=
  fun r c =>
    y ⟨r.val + top, by omega⟩ ⟨c.val + left, by omega⟩ +
      ∑ i : Fin (H + top + bottom), ∑ j : Fin (W + left + right),
        if ¬ ((top ≤ i.val ∧ i.val < top + H) ∧ (left ≤ j.val ∧ j.val < left + W))
            ∧ foldIndex mode H ((i.val : Int) - (top : Int)) = r.val
            ∧ foldIndex mode W ((j.val : Int) - (left : Int)) = c.val
        then y i j else 0

/-- Inner product of two images of one shape: the sum over all positions of
the product of the two samples. -/
def innerProduct {m n : Nat} (a b : Fin m → Fin n → R) : R :=
  ∑ i : Fin m, ∑ j : Fin n, a i j * b i j

/-- Modelled from the spec: a tensor (the tensor classes are not part of the
inspected header), here a dense rectangular two-dimensional buffer with its
shape. -/
structure Tensor (R : Type) where
  height : Nat
  width : Nat
  data : Fin height → Fin width → R

/-- Modelled from the spec: what a call of `forward` / `adjoint` leaves
behind: the outcome (normal return or the exception thrown) and the
caller-provided output tensors as they are after the call. -/
abbrev CallResult (R : Type) := Except OptoxError Unit × List (Tensor R)

/-- Modelled from the spec: the virtual members of the base class `IOperator`
(`ioperator.h` is not among the inspected sources) that a concrete operator
overrides. -/
structure IOperator (R : Type) where
  computeForward : List (Tensor R) → List (Tensor R) → CallResult R
  computeAdjoint : List (Tensor R) → List (Tensor R) → CallResult R
  getNumOutputsForward : Nat
  getNumInputsForward : Nat
  getNumOutputsAdjoint : Nat
  getNumInputsAdjoint : Nat

/-- Modelled from the spec: `IOperator::forward(outputs, inputs)` (missing
with `ioperator.h`).  `outputs` must hold exactly `getNumOutputsForward()`
tensors and `inputs` exactly `getNumInputsForward()`; otherwise the call fails
with an arity error before anything is written.  Only then is
`computeForward` dispatched. -/
def IOperator.forward (self : IOperator R) (outputs inputs : List (Tensor R)) :
    CallResult R :=
  if outputs.length ≠ self.getNumOutputsForward then (.error .arity, outputs)
  else if inputs.length ≠ self.getNumInputsForward then (.error .arity, outputs)
  else self.computeForward outputs inputs

/-- Modelled from the spec: `IOperator::adjoint(outputs, inputs)` (missing
with `ioperator.h`), the symmetric contract with `getNumOutputsAdjoint()` and
`getNumInputsAdjoint()`. -/
def IOperator.adjoint (self : IOperator R) (outputs inputs : List (Tensor R)) :
    CallResult R :=
  if outputs.length ≠ self.getNumOutputsAdjoint then (.error .arity, outputs)
  else if inputs.length ≠ self.getNumInputsAdjoint then (.error .arity, outputs)
  else self.computeAdjoint outputs inputs

/-- Modelled from the spec: the missing body of
`Pad2dOperator::computeForward(outputs, inputs)`.  The one output tensor must
have the extents implied by the configured (non-negative) margins, else the
call fails with a shape error; the output is then fully overwritten with the
padded input. -/
def Pad2dOperator.computeForward (op : Pad2dOperator)
    (outputs inputs : List (Tensor R)) : CallResult R :=
  match outputs, inputs with
  | [out], [x] =>
    if (0 ≤ op.left_ ∧ 0 ≤ op.right_ ∧ 0 ≤ op.top_ ∧ 0 ≤ op.bottom_)
        ∧ out.height = x.height + op.top_.toNat + op.bottom_.toNat
        ∧ out.width = x.width + op.left_.toNat + op.right_.toNat then
      (.ok (),
        [{ height := x.height + op.top_.toNat + op.bottom_.toNat
           width := x.width + op.left_.toNat + op.right_.toNat
           data := padForward op.mode_ op.left_.toNat op.right_.toNat
                     op.top_.toNat op.bottom_.toNat x.data }])
    else (.error .shape, outputs)
  | _, _ => (.error .arity, outputs)

/-- Modelled from the spec: the missing body of
`Pad2dOperator::computeAdjoint(outputs, inputs)`.  The one input tensor must
have the padded extents of the one output tensor, else the call fails with a
shape error; the output is then fully overwritten with the accumulated
gradient. -/
def Pad2dOperator.computeAdjoint (op : Pad2dOperator)
    (outputs inputs : List (Tensor R)) : CallResult R :=
  match outputs, inputs with
  | [out], [y] =>
    if h : (0 ≤ op.left_ ∧ 0 ≤ op.right_ ∧ 0 ≤ op.top_ ∧ 0 ≤ op.bottom_)
        ∧ y.height = out.height + op.top_.toNat + op.bottom_.toNat
        ∧ y.width = out.width + op.left_.toNat + op.right_.toNat then
      (.ok (),
        [{ height := out.height
           width := out.width
           data := padAdjoint op.mode_ op.left_.toNat op.right_.toNat
                     op.top_.toNat op.bottom_.toNat
                     (fun i j => y.data (Fin.cast h.2.1.symm i) (Fin.cast h.2.2.symm j)) }])
    else (.error .shape, outputs)
  | _, _ => (.error .arity, outputs)

/-- The operator seen through its base class: the overrides of the header
(`getNum*` return 1) and the two transforms. -/
def Pad2dOperator.toIOperator (op : Pad2dOperator) : IOperator R where
  computeForward := op.computeForward
  computeAdjoint := op.computeAdjoint
  getNumOutputsForward := op.getNumOutputsForward
  getNumInputsForward := op.getNumInputsForward
  getNumOutputsAdjoint := op.getNumOutputsAdjoint
  getNumInputsAdjoint := op.getNumInputsAdjoint

/-- Public `forward(outputs, inputs)` of a `Pad2dOperator`, inherited from
`IOperator`. -/
def Pad2dOperator.forward (op : Pad2dOperator) (outputs inputs : List (Tensor R)) :
    CallResult R :=
  IOperator.forward op.toIOperator outputs inputs

/-- Public `adjoint(outputs, inputs)` of a `Pad2dOperator`, inherited from
`IOperator`. -/
def Pad2dOperator.adjoint (op : Pad2dOperator) (outputs inputs : List (Tensor R)) :
    CallResult R :=
  IOperator.adjoint op.toIOperator outputs inputs

end Transforms

/-! ## Helper lemmas -/

theorem wrapInt32_of_inRange (z : Int) (hlo : INT_MIN ≤ z) (hhi : z ≤ INT_MAX) :
    wrapInt32 z = z := by
  unfold INT_MIN at hlo
  unfold INT_MAX at hhi
  unfold wrapInt32
  omega

theorem construct_ok_fields (l r t b : Int) (mode : String) (op : Pad2dOperator)
    (h : Pad2dOperator.construct l r t b mode = .ok op) :
    op.left_ = l ∧ op.right_ = r ∧ op.top_ = t ∧ op.bottom_ = b := by
  unfold Pad2dOperator.construct at h
  split_ifs at h <;> cases h <;> exact ⟨rfl, rfl, rfl, rfl⟩

theorem callAll_eq (qs : List Query) (op : Pad2dOperator) :
    Pad2dOperator.callAll qs op = op := by
  induction qs with
  | nil => rfl
  | cons q qs ih =>
    have hq : (op.call q).2 = op := by cases q <;> rfl
    simp only [Pad2dOperator.callAll, List.foldl_cons, hq]
    exact ih

section TransformLemmas

variable {R : Type} [CommSemiring R]

/-- Summing `x r c * v` over the interior positions equal to a given row and
column number is the total read at that position, times `v`. -/
theorem sum_select_eq_readAt {H W : Nat} (x : Fin H → Fin W → R) (a b : Nat) (v : R) :
    (∑ r : Fin H, ∑ c : Fin W, if a = r.val ∧ b = c.val then x r c * v else 0)
      = readAt x a b * v := by
  unfold readAt
  by_cases h : a < H ∧ b < W
  · rw [dif_pos h]
    rw [Finset.sum_eq_single (⟨a, h.1⟩ : Fin H)]
    · rw [Finset.sum_eq_single (⟨b, h.2⟩ : Fin W)]
      · simp
      · intro c _ hc
        have : b ≠ c.val := fun hb => hc (Fin.ext hb.symm)
        simp [this]
      · intro hb
        exact absurd (Finset.mem_univ _) hb
    · intro r _ hr
      have : a ≠ r.val := fun ha => hr (Fin.ext ha.symm)
      simp [this]
    · intro ha
      exact absurd (Finset.mem_univ _) ha
  · rw [dif_neg h, zero_mul]
    apply Finset.sum_eq_zero
    intro r _
    apply Finset.sum_eq_zero
    intro c _
    have : ¬ (a = r.val ∧ b = c.val) := by
      rintro ⟨ha, hb⟩
      exact h ⟨ha ▸ r.isLt, hb ▸ c.isLt⟩
    simp [this]

/-- The sample of `y` at a given position, written as a sum over all
positions. -/
theorem sample_eq_sum {m n : Nat} (y : Fin m → Fin n → R) (a b : Nat)
    (ha : a < m) (hb : b < n) :
    y ⟨a, ha⟩ ⟨b, hb⟩
      = ∑ i : Fin m, ∑ j : Fin n, if i.val = a ∧ j.val = b then y i j else 0 := by
  rw [Finset.sum_eq_single (⟨a, ha⟩ : Fin m)]
  · rw [Finset.sum_eq_single (⟨b, hb⟩ : Fin n)]
    · simp
    · intro j _ hj
      have : j.val ≠ b := fun h => hj (Fin.ext h)
      simp [this]
    · intro h
      exact absurd (Finset.mem_univ _) h
  · intro i _ hi
    have : i.val ≠ a := fun h => hi (Fin.ext h)
    simp [this]
  · intro h
    exact absurd (Finset.mem_univ _) h

/-- Exchange of a double sum over the interior with a double sum over the
padded image. -/
theorem sum_exchange {H W m n : Nat} (f : Fin H → Fin W → Fin m → Fin n → R) :
    (∑ r : Fin H, ∑ c : Fin W, ∑ i : Fin m, ∑ j : Fin n, f r c i j)
      = ∑ i : Fin m, ∑ j : Fin n, ∑ r : Fin H, ∑ c : Fin W, f r c i j := by
  calc (∑ r : Fin H, ∑ c : Fin W, ∑ i : Fin m, ∑ j : Fin n, f r c i j)
      = ∑ r : Fin H, ∑ i : Fin m, ∑ c : Fin W, ∑ j : Fin n, f r c i j :=
        Finset.sum_congr rfl (fun r _ => Finset.sum_comm)
    _ = ∑ i : Fin m, ∑ r : Fin H, ∑ c : Fin W, ∑ j : Fin n, f r c i j := Finset.sum_comm
    _ = ∑ i : Fin m, ∑ r : Fin H, ∑ j : Fin n, ∑ c : Fin W, f r c i j :=
        Finset.sum_congr rfl (fun i _ =>
          Finset.sum_congr rfl (fun r _ => Finset.sum_comm))
    _ = ∑ i : Fin m, ∑ j : Fin n, ∑ r : Fin H, ∑ c : Fin W, f r c i j :=
        Finset.sum_congr rfl (fun i _ => Finset.sum_comm)

/-- The inner-product identity of the two image transforms. -/
theorem padForward_padAdjoint_inner (mode : PaddingMode) (left right top bottom H W : Nat)
    (x : Fin H → Fin W → R)
    (y : Fin (H + top + bottom) → Fin (W + left + right) → R) :
    innerProduct (padForward mode left right top bottom x) y
      = innerProduct x (padAdjoint mode left right top bottom y) := by
  unfold innerProduct
  symm
  have hterm : ∀ (r : Fin H) (c : Fin W),
      x r c * padAdjoint mode left right top bottom y r c
        = ∑ i : Fin (H + top + bottom), ∑ j : Fin (W + left + right),
            ((if i.val - top = r.val ∧ j.val - left = c.val then
                (if (top ≤ i.val ∧ i.val < top + H) ∧ (left ≤ j.val ∧ j.val < left + W)
                  then x r c * y i j else 0) else 0)
             + (if foldIndex mode H ((i.val : Int) - (top : Int)) = r.val
                    ∧ foldIndex mode W ((j.val : Int) - (left : Int)) = c.val then
                (if (top ≤ i.val ∧ i.val < top + H) ∧ (left ≤ j.val ∧ j.val < left + W)
                  then 0 else x r c * y i j) else 0)) := by
    intro r c
    unfold padAdjoint
    rw [sample_eq_sum y (r.val + top) (c.val + left) (by omega) (by omega)]
    rw [mul_add, Finset.mul_sum, Finset.mul_sum, ← Finset.sum_add_distrib]
    apply Finset.sum_congr rfl
    intro i _
    rw [Finset.mul_sum, Finset.mul_sum, ← Finset.sum_add_distrib]
    apply Finset.sum_congr rfl
    intro j _
    congr 1
    · by_cases h1 : i.val = r.val + top ∧ j.val = c.val + left
      · have h2 : i.val - top = r.val ∧ j.val - left = c.val := by omega
        have h3 : (top ≤ i.val ∧ i.val < top + H) ∧ (left ≤ j.val ∧ j.val < left + W) := by
          have := r.isLt
          have := c.isLt
          omega
        rw [if_pos h1, if_pos h2, if_pos h3]
      · rw [if_neg h1, mul_zero]
        by_cases h2 : i.val - top = r.val ∧ j.val - left = c.val
        · have h3 : ¬ ((top ≤ i.val ∧ i.val < top + H)
              ∧ (left ≤ j.val ∧ j.val < left + W)) := by omega
          rw [if_pos h2, if_neg h3]
        · rw [if_neg h2]
    · by_cases h3 : (top ≤ i.val ∧ i.val < top + H) ∧ (left ≤ j.val ∧ j.val < left + W)
      · simp [h3]
      · by_cases h4 : foldIndex mode H ((i.val : Int) - (top : Int)) = r.val
            ∧ foldIndex mode W ((j.val : Int) - (left : Int)) = c.val
        · simp [h3, h4]
        · have h5 : ¬ (¬ ((top ≤ i.val ∧ i.val < top + H)
                ∧ (left ≤ j.val ∧ j.val < left + W))
              ∧ foldIndex mode H ((i.val : Int) - (top : Int)) = r.val
              ∧ foldIndex mode W ((j.val : Int) - (left : Int)) = c.val) :=
            fun h => h4 h.2
          rw [if_neg h5, if_neg h4, mul_zero]
  calc (∑ r : Fin H, ∑ c : Fin W, x r c * padAdjoint mode left right top bottom y r c)
      = ∑ r : Fin H, ∑ c : Fin W,
          ∑ i : Fin (H + top + bottom), ∑ j : Fin (W + left + right),
            ((if i.val - top = r.val ∧ j.val - left = c.val then
                (if (top ≤ i.val ∧ i.val < top + H) ∧ (left ≤ j.val ∧ j.val < left + W)
                  then x r c * y i j else 0) else 0)
             + (if foldIndex mode H ((i.val : Int) - (top : Int)) = r.val
                    ∧ foldIndex mode W ((j.val : Int) - (left : Int)) = c.val then
                (if (top ≤ i.val ∧ i.val < top + H) ∧ (left ≤ j.val ∧ j.val < left + W)
                  then 0 else x r c * y i j) else 0)) :=
        Finset.sum_congr rfl (fun r _ => Finset.sum_congr rfl (fun c _ => hterm r c))
    _ = ∑ i : Fin (H + top + bottom), ∑ j : Fin (W + left + right),
          ∑ r : Fin H, ∑ c : Fin W,
            ((if i.val - top = r.val ∧ j.val - left = c.val then
                (if (top ≤ i.val ∧ i.val < top + H) ∧ (left ≤ j.val ∧ j.val < left + W)
                  then x r c * y i j else 0) else 0)
             + (if foldIndex mode H ((i.val : Int) - (top : Int)) = r.val
                    ∧ foldIndex mode W ((j.val : Int) - (left : Int)) = c.val then
                (if (top ≤ i.val ∧ i.val < top + H) ∧ (left ≤ j.val ∧ j.val < left + W)
                  then 0 else x r c * y i j) else 0)) := sum_exchange _
    _ = ∑ i : Fin (H + top + bottom), ∑ j : Fin (W + left + right),
          padForward mode left right top bottom x i j * y i j := by
        apply Finset.sum_congr rfl
        intro i _
        apply Finset.sum_congr rfl
        intro j _
        simp only [Finset.sum_add_distrib]
        unfold padForward
        by_cases h3 : (top ≤ i.val ∧ i.val < top + H) ∧ (left ≤ j.val ∧ j.val < left + W)
        · simp only [h3, if_true, dif_pos, and_self, ite_self, Finset.sum_const_zero, add_zero]
          rw [sum_select_eq_readAt x (i.val - top) (j.val - left) (y i j)]
          unfold readAt
          rw [dif_pos (by omega)]
        · simp only [h3, if_false, dif_neg, not_false_eq_true, ite_self,
            Finset.sum_const_zero, zero_add]
          rw [sum_select_eq_readAt x _ _ (y i j)]

end TransformLemmas

/-! ## Sanity of the index folding -/

/-- On a non-empty axis every folded index is an index of the axis: a border
element always has an interior sample to copy. -/
theorem foldIndex_lt (mode : PaddingMode) (n : Nat) (hn : 0 < n) (k : Int) :
    foldIndex mode n k < n := by
  cases mode
  · show symmetricIndex n k < n
    unfold symmetricIndex
    have h0 : 0 ≤ k % (2 * (n : Int)) := Int.emod_nonneg _ (by omega)
    have h1 : k % (2 * (n : Int)) < 2 * (n : Int) := Int.emod_lt_of_pos _ (by omega)
    simp only
    split_ifs <;> omega
  · show reflectIndex n k < n
    unfold reflectIndex
    by_cases h : n ≤ 1
    · rw [if_pos h]; exact hn
    · rw [if_neg h]
      have h0 : 0 ≤ k % (2 * ((n : Int) - 1)) := Int.emod_nonneg _ (by omega)
      have h1 : k % (2 * ((n : Int) - 1)) < 2 * ((n : Int) - 1) :=
        Int.emod_lt_of_pos _ (by omega)
      simp only
      split_ifs <;> omega
  · show clampIndex n k < n
    unfold clampIndex
    split_ifs <;> omega

/-- An index inside the axis is its own fold, in every mode. -/
theorem foldIndex_interior (mode : PaddingMode) (n : Nat) (k : Nat) (hk : k < n) :
    foldIndex mode n (k : Int) = k := by
  cases mode
  · show symmetricIndex n (k : Int) = k
    unfold symmetricIndex
    have h : (k : Int) % (2 * (n : Int)) = k := Int.emod_eq_of_lt (by omega) (by omega)
    simp only [h, Int.toNat_ofNat]
    rw [if_pos hk]
  · show reflectIndex n (k : Int) = k
    unfold reflectIndex
    by_cases h1 : n ≤ 1
    · rw [if_pos h1]; omega
    · rw [if_neg h1]
      by_cases h2 : k = n - 1
      · have h3 : (k : Int) % (2 * ((n : Int) - 1)) = k :=
          Int.emod_eq_of_lt (by omega) (by omega)
        simp only [h3, Int.toNat_ofNat]
        rw [if_pos hk]
      · have h3 : (k : Int) % (2 * ((n : Int) - 1)) = k :=
          Int.emod_eq_of_lt (by omega) (by omega)
        simp only [h3, Int.toNat_ofNat]
        rw [if_pos hk]
  · show clampIndex n (k : Int) = k
    unfold clampIndex
    split_ifs <;> omega

/-- Sample folds on an axis of extent three with margin three on both sides. -/
theorem foldIndex_samples :
    (List.range 9).map (fun i => foldIndex .reflect 3 ((i : Int) - 3))
        = [1, 2, 1, 0, 1, 2, 1, 0, 1]
    ∧ (List.range 9).map (fun i => foldIndex .symmetric 3 ((i : Int) - 3))
        = [2, 1, 0, 0, 1, 2, 2, 1, 0]
    ∧ (List.range 9).map (fun i => foldIndex .replicate 3 ((i : Int) - 3))
        = [0, 0, 0, 0, 1, 2, 2, 2, 2] := by
  decide

/-! ## The claims -/

/-- C1: adjoint identity of the padding operator.  For every mode, all
non-negative margins, every interior image `x` of shape `H × W` and every
image `y` of the padded shape, `computeForward` writes the padded image of
`x`, `computeAdjoint` writes the accumulated image of `y`, and the sum over
all padded positions of `forward(x) * y` equals the sum over all interior
positions of `x * adjoint(y)`, in exact arithmetic (any commutative
semiring). -/
theorem pad2d_adjoint_identity {R : Type} [CommSemiring R] (mode : PaddingMode)
    (left right top bottom H W : Nat)
    (x out1 : Fin H → Fin W → R)
    (y out0 : Fin (H + top + bottom) → Fin (W + left + right) → R) :
    Pad2dOperator.computeForward
        { left_ := left, right_ := right, top_ := top, bottom_ := bottom, mode_ := mode }
        [{ height := H + top + bottom, width := W + left + right, data := out0 }]
        [{ height := H, width := W, data := x }]
      = (.ok (), [{ height := H + top + bottom, width := W + left + right,
                    data := padForward mode left right top bottom x }])
    ∧ Pad2dOperator.computeAdjoint
        { left_ := left, right_ := right, top_ := top, bottom_ := bottom, mode_ := mode }
        [{ height := H, width := W, data := out1 }]
        [{ height := H + top + bottom, width := W + left + right, data := y }]
      = (.ok (), [{ height := H, width := W,
                    data := padAdjoint mode left right top bottom y }])
    ∧ innerProduct (padForward mode left right top bottom x) y
      = innerProduct x (padAdjoint mode left right top bottom y) := by
  refine ⟨?_, ?_, padForward_padAdjoint_inner mode left right top bottom H W x y⟩
  · unfold Pad2dOperator.computeForward
    simp only
    rw [if_pos ⟨⟨Int.ofNat_nonneg _, Int.ofNat_nonneg _, Int.ofNat_nonneg _,
      Int.ofNat_nonneg _⟩, rfl, rfl⟩]
    rfl
  · unfold Pad2dOperator.computeAdjoint
    simp only
    rw [dif_pos ⟨⟨Int.ofNat_nonneg _, Int.ofNat_nonneg _, Int.ofNat_nonneg _,
      Int.ofNat_nonneg _⟩, rfl, rfl⟩]
    rfl

/-- C2: construction fails, with the configuration error
`"Pad2dOperator: invalid mode!"` and without an operator instance, if and only
if the mode string is none of `"symmetric"`, `"reflect"`, `"replicate"`; it
succeeds if and only if the mode string is one of the three.  In particular
`"bogus"`, the empty string and `"Symmetric"` are rejected. -/
theorem construct_fails_iff_invalid_mode (left right top bottom : Int) (mode : String) :
    (Pad2dOperator.construct left right top bottom mode
        = .error (OptoxError.configuration "Pad2dOperator: invalid mode!")
      ↔ (mode ≠ "symmetric" ∧ mode ≠ "reflect" ∧ mode ≠ "replicate"))
    ∧ ((∃ op, Pad2dOperator.construct left right top bottom mode = .ok op)
      ↔ (mode = "symmetric" ∨ mode = "reflect" ∨ mode = "replicate"))
    ∧ ((∀ op, Pad2dOperator.construct left right top bottom mode ≠ .ok op)
      ↔ (mode ≠ "symmetric" ∧ mode ≠ "reflect" ∧ mode ≠ "replicate"))
    ∧ Pad2dOperator.construct left right top bottom "bogus"
        = .error (OptoxError.configuration "Pad2dOperator: invalid mode!")
    ∧ Pad2dOperator.construct left right top bottom ""
        = .error (OptoxError.configuration "Pad2dOperator: invalid mode!")
    ∧ Pad2dOperator.construct left right top bottom "Symmetric"
        = .error (OptoxError.configuration "Pad2dOperator: invalid mode!") := by
  refine ⟨?_, ?_, ?_, ?_, ?_, ?_⟩
  · unfold Pad2dOperator.construct
    constructor
    · intro h
      split_ifs at h with h1 h2 h3
      exact ⟨h1, h2, h3⟩
    · rintro ⟨h1, h2, h3⟩
      rw [if_neg h1, if_neg h2, if_neg h3]
  · unfold Pad2dOperator.construct
    constructor
    · rintro ⟨op, h⟩
      split_ifs at h with h1 h2 h3
      · exact Or.inl h1
      · exact Or.inr (Or.inl h2)
      · exact Or.inr (Or.inr h3)
    · rintro (h | h | h) <;> subst h <;> exact ⟨_, rfl⟩
  · unfold Pad2dOperator.construct
    constructor
    · intro h
      refine ⟨?_, ?_, ?_⟩ <;> intro hm <;> subst hm <;> exact h _ rfl
    · rintro ⟨h1, h2, h3⟩ op
      rw [if_neg h1, if_neg h2, if_neg h3]
      intro h
      cases h
  · simp [Pad2dOperator.construct]
  · simp [Pad2dOperator.construct]
  · simp [Pad2dOperator.construct]

/-- C3: on successful construction the stored mode is the enum variant named
by the mode string, never another one: `"symmetric"` gives
`PaddingMode.symmetric`, `"reflect"` gives `PaddingMode.reflect`,
`"replicate"` gives `PaddingMode.replicate`; and two successful constructions
store the same mode exactly when their mode strings are the same. -/
theorem construct_mode_named (left right top bottom left2 right2 top2 bottom2 : Int)
    (mode mode2 : String) (op op2 : Pad2dOperator)
    (h : Pad2dOperator.construct left right top bottom mode = .ok op)
    (h2 : Pad2dOperator.construct left2 right2 top2 bottom2 mode2 = .ok op2) :
    ((mode = "symmetric" ∧ op.mode_ = PaddingMode.symmetric)
      ∨ (mode = "reflect" ∧ op.mode_ = PaddingMode.reflect)
      ∨ (mode = "replicate" ∧ op.mode_ = PaddingMode.replicate))
    ∧ (op.mode_ = op2.mode_ ↔ mode = mode2)
    ∧ Pad2dOperator.construct left right top bottom "symmetric"
        = .ok ⟨left, right, top, bottom, PaddingMode.symmetric⟩
    ∧ Pad2dOperator.construct left right top bottom "reflect"
        = .ok ⟨left, right, top, bottom, PaddingMode.reflect⟩
    ∧ Pad2dOperator.construct left right top bottom "replicate"
        = .ok ⟨left, right, top, bottom, PaddingMode.replicate⟩ := by
  refine ⟨?_, ?_, rfl, rfl, rfl⟩
  · unfold Pad2dOperator.construct at h
    split_ifs at h with a1 a2 a3
    · cases h; exact Or.inl ⟨a1, rfl⟩
    · cases h; exact Or.inr (Or.inl ⟨a2, rfl⟩)
    · cases h; exact Or.inr (Or.inr ⟨a3, rfl⟩)
  · unfold Pad2dOperator.construct at h h2
    split_ifs at h with a1 a2 a3 <;> split_ifs at h2 with b1 b2 b3 <;>
      cases h <;> cases h2 <;> subst_vars <;> simp

/-- Witness for C3: `"symmetric"` against `"reflect"`. -/
theorem construct_mode_named_witness :
    (("symmetric" = "symmetric"
        ∧ (Pad2dOperator.mk 1 2 3 4 .symmetric).mode_ = PaddingMode.symmetric)
      ∨ ("symmetric" = "reflect"
        ∧ (Pad2dOperator.mk 1 2 3 4 .symmetric).mode_ = PaddingMode.reflect)
      ∨ ("symmetric" = "replicate"
        ∧ (Pad2dOperator.mk 1 2 3 4 .symmetric).mode_ = PaddingMode.replicate))
    ∧ ((Pad2dOperator.mk 1 2 3 4 .symmetric).mode_ = (Pad2dOperator.mk 0 0 0 0 .reflect).mode_
        ↔ "symmetric" = "reflect") :=
  have key := construct_mode_named 1 2 3 4 0 0 0 0 "symmetric" "reflect"
    ⟨1, 2, 3, 4, .symmetric⟩ ⟨0, 0, 0, 0, .reflect⟩ rfl rfl
  ⟨key.1, key.2.1⟩

/-- C4: for every operator constructed from `(left, right, top, bottom, mode)`,
`paddingX()` returns the `int` sum `left + right` and `paddingY()` the `int`
sum `top + bottom`, whatever the mode; the returned value is the exact sum
whenever that sum is an `int` value; with all four margins zero both return
zero. -/
theorem paddingX_paddingY_sums (left right top bottom : Int) (mode : String)
    (op : Pad2dOperator)
    (h : Pad2dOperator.construct left right top bottom mode = .ok op) :
    op.paddingX = addInt32 left right
    ∧ op.paddingY = addInt32 top bottom
    ∧ ((INT_MIN ≤ left + right ∧ left + right ≤ INT_MAX) → op.paddingX = left + right)
    ∧ ((INT_MIN ≤ top + bottom ∧ top + bottom ≤ INT_MAX) → op.paddingY = top + bottom)
    ∧ ((left = 0 ∧ right = 0 ∧ top = 0 ∧ bottom = 0) → op.paddingX = 0 ∧ op.paddingY = 0) := by
  obtain ⟨hl, hr, ht, hb⟩ := construct_ok_fields left right top bottom mode op h
  have hx : op.paddingX = addInt32 left right := by
    unfold Pad2dOperator.paddingX; rw [hl, hr]
  have hy : op.paddingY = addInt32 top bottom := by
    unfold Pad2dOperator.paddingY; rw [ht, hb]
  refine ⟨hx, hy, ?_, ?_, ?_⟩
  · rintro ⟨h1, h2⟩
    rw [hx]; exact wrapInt32_of_inRange _ h1 h2
  · rintro ⟨h1, h2⟩
    rw [hy]; exact wrapInt32_of_inRange _ h1 h2
  · rintro ⟨rfl, rfl, rfl, rfl⟩
    rw [hx, hy]
    exact ⟨by decide, by decide⟩

/-- Witness for C4: margins `(1, 2, 3, 4)` in `reflect` mode. -/
theorem paddingX_paddingY_sums_witness :
    Pad2dOperator.construct 1 2 3 4 "reflect" = .ok ⟨1, 2, 3, 4, .reflect⟩
    ∧ (Pad2dOperator.mk 1 2 3 4 .reflect).paddingX = 3
    ∧ (Pad2dOperator.mk 1 2 3 4 .reflect).paddingY = 7 :=
  have key := paddingX_paddingY_sums 1 2 3 4 "reflect" ⟨1, 2, 3, 4, .reflect⟩ rfl
  ⟨rfl, key.2.2.1 (by decide), key.2.2.2.1 (by decide)⟩

/-- C5: the arity tuple of every `Pad2dOperator` is `(1, 1, 1, 1)`:
`getNumInputsForward()`, `getNumOutputsForward()`, `getNumInputsAdjoint()` and
`getNumOutputsAdjoint()` each return 1, for all margins and every mode. -/
theorem arity_all_one (op : Pad2dOperator) :
    op.getNumInputsForward = 1 ∧ op.getNumOutputsForward = 1
    ∧ op.getNumInputsAdjoint = 1 ∧ op.getNumOutputsAdjoint = 1 :=
  ⟨rfl, rfl, rfl, rfl⟩

/-- C6: an arity mismatch is rejected before any write.  Calling `forward`
with a number of inputs other than `getNumInputsForward() = 1`, or a number of
outputs other than `getNumOutputsForward() = 1`, fails with an arity error and
leaves the output tensors as they were; likewise `adjoint` with
`getNumInputsAdjoint()` / `getNumOutputsAdjoint()`. -/
theorem arity_mismatch_rejected {R : Type} [CommSemiring R] (op : Pad2dOperator)
    (outputs inputs : List (Tensor R))
    (h : inputs.length ≠ 1 ∨ outputs.length ≠ 1) :
    (inputs.length ≠ op.getNumInputsForward ∨ outputs.length ≠ op.getNumOutputsForward)
    ∧ op.forward outputs inputs = (.error OptoxError.arity, outputs)
    ∧ (inputs.length ≠ op.getNumInputsAdjoint ∨ outputs.length ≠ op.getNumOutputsAdjoint)
    ∧ op.adjoint outputs inputs = (.error OptoxError.arity, outputs) := by
  refine ⟨h, ?_, h, ?_⟩
  · unfold Pad2dOperator.forward IOperator.forward
    by_cases ho : outputs.length ≠ 1
    · exact if_pos ho
    · have hi : inputs.length ≠ 1 := h.resolve_right ho
      exact (if_neg ho).trans (if_pos hi)
  · unfold Pad2dOperator.adjoint IOperator.adjoint
    by_cases ho : outputs.length ≠ 1
    · exact if_pos ho
    · have hi : inputs.length ≠ 1 := h.resolve_right ho
      exact (if_neg ho).trans (if_pos hi)

/-- Witness for C6: `forward` and `adjoint` called with no input tensor and
one `1 × 1` output tensor. -/
theorem arity_mismatch_rejected_witness :
    (([] : List (Tensor Int)).length ≠ 1 ∨ [Tensor.mk 1 1 (fun _ _ => (7 : Int))].length ≠ 1)
    ∧ (Pad2dOperator.mk 1 1 1 1 .reflect).forward [Tensor.mk 1 1 (fun _ _ => (7 : Int))] []
        = (.error OptoxError.arity, [Tensor.mk 1 1 (fun _ _ => (7 : Int))])
    ∧ (Pad2dOperator.mk 1 1 1 1 .reflect).adjoint [Tensor.mk 1 1 (fun _ _ => (7 : Int))] []
        = (.error OptoxError.arity, [Tensor.mk 1 1 (fun _ _ => (7 : Int))]) :=
  have hyp : ([] : List (Tensor Int)).length ≠ 1
      ∨ [Tensor.mk 1 1 (fun _ _ => (7 : Int))].length ≠ 1 := Or.inl (by decide)
  have key := arity_mismatch_rejected (Pad2dOperator.mk 1 1 1 1 .reflect)
    [Tensor.mk 1 1 (fun _ _ => (7 : Int))] [] hyp
  ⟨hyp, key.2.1, key.2.2.2⟩

/-- C7 as stated fails: the constructor checks the mode string only.  With
margins `(-1, 0, 0, 0)` and mode `"symmetric"` it returns an operator whose
left margin is negative; and with the non-negative margins
`(2147483647, 2147483647, 0, 0)` it returns an operator whose `paddingX()` is
negative. -/
theorem margins_nonneg_counterexample :
    (∃ op, Pad2dOperator.construct (-1) 0 0 0 "symmetric" = .ok op
      ∧ ¬ (0 ≤ op.left_ ∧ 0 ≤ op.right_ ∧ 0 ≤ op.top_ ∧ 0 ≤ op.bottom_))
    ∧ (∃ op, Pad2dOperator.construct 2147483647 2147483647 0 0 "symmetric" = .ok op
      ∧ (0 ≤ op.left_ ∧ 0 ≤ op.right_ ∧ 0 ≤ op.top_ ∧ 0 ≤ op.bottom_)
      ∧ ¬ (0 ≤ op.paddingX)) :=
  ⟨⟨⟨-1, 0, 0, 0, .symmetric⟩, rfl, by decide⟩,
   ⟨⟨2147483647, 2147483647, 0, 0, .symmetric⟩, rfl, by decide, by decide⟩⟩

/-- C7, amended: every operator the constructor returns stores the four
constructor arguments as they were given, whatever their sign (the constructor
checks the mode string only); so each stored margin is non-negative exactly
when its argument is, all four are non-negative when the arguments are, and
then `paddingX()` is non-negative when `left + right` does not exceed the
largest `int`, and `paddingY()` when `top + bottom` does not. -/
theorem margins_nonneg_of_args (left right top bottom : Int) (mode : String)
    (op : Pad2dOperator)
    (h : Pad2dOperator.construct left right top bottom mode = .ok op) :
    (op.left_ = left ∧ op.right_ = right ∧ op.top_ = top ∧ op.bottom_ = bottom)
    ∧ ((0 ≤ op.left_ ↔ 0 ≤ left) ∧ (0 ≤ op.right_ ↔ 0 ≤ right)
      ∧ (0 ≤ op.top_ ↔ 0 ≤ top) ∧ (0 ≤ op.bottom_ ↔ 0 ≤ bottom))
    ∧ ((0 ≤ left ∧ 0 ≤ right ∧ 0 ≤ top ∧ 0 ≤ bottom)
      → (0 ≤ op.left_ ∧ 0 ≤ op.right_ ∧ 0 ≤ op.top_ ∧ 0 ≤ op.bottom_))
    ∧ ((0 ≤ left ∧ 0 ≤ right ∧ left + right ≤ INT_MAX) → 0 ≤ op.paddingX)
    ∧ ((0 ≤ top ∧ 0 ≤ bottom ∧ top + bottom ≤ INT_MAX) → 0 ≤ op.paddingY) := by
  obtain ⟨e1, e2, e3, e4⟩ := construct_ok_fields left right top bottom mode op h
  refine ⟨⟨e1, e2, e3, e4⟩, ⟨by rw [e1], by rw [e2], by rw [e3], by rw [e4]⟩, ?_, ?_, ?_⟩
  · rintro ⟨hl, hr, ht, hb⟩
    exact ⟨by omega, by omega, by omega, by omega⟩
  · rintro ⟨hl, hr, hx⟩
    unfold Pad2dOperator.paddingX addInt32
    rw [e1, e2, wrapInt32_of_inRange _ (by unfold INT_MIN; omega) hx]
    omega
  · rintro ⟨ht, hb, hy⟩
    unfold Pad2dOperator.paddingY addInt32
    rw [e3, e4, wrapInt32_of_inRange _ (by unfold INT_MIN; omega) hy]
    omega

/-- Witness for C7, amended: margins `(1, 2, 3, 4)` in `replicate` mode, all
non-negative, and margins `(-1, 0, -3, 0)` in `symmetric` mode, stored with
their signs. -/
theorem margins_nonneg_of_args_witness :
    (Pad2dOperator.construct 1 2 3 4 "replicate" = .ok ⟨1, 2, 3, 4, .replicate⟩
      ∧ (0 ≤ (Pad2dOperator.mk 1 2 3 4 .replicate).left_
          ∧ 0 ≤ (Pad2dOperator.mk 1 2 3 4 .replicate).right_
          ∧ 0 ≤ (Pad2dOperator.mk 1 2 3 4 .replicate).top_
          ∧ 0 ≤ (Pad2dOperator.mk 1 2 3 4 .replicate).bottom_)
      ∧ 0 ≤ (Pad2dOperator.mk 1 2 3 4 .replicate).paddingX
      ∧ 0 ≤ (Pad2dOperator.mk 1 2 3 4 .replicate).paddingY)
    ∧ (Pad2dOperator.construct (-1) 0 (-3) 0 "symmetric" = .ok ⟨-1, 0, -3, 0, .symmetric⟩
      ∧ ((Pad2dOperator.mk (-1) 0 (-3) 0 .symmetric).left_ = -1
          ∧ (Pad2dOperator.mk (-1) 0 (-3) 0 .symmetric).right_ = 0
          ∧ (Pad2dOperator.mk (-1) 0 (-3) 0 .symmetric).top_ = -3
          ∧ (Pad2dOperator.mk (-1) 0 (-3) 0 .symmetric).bottom_ = 0)
      ∧ ¬ (0 ≤ (Pad2dOperator.mk (-1) 0 (-3) 0 .symmetric).left_)) :=
  have key := margins_nonneg_of_args 1 2 3 4 "replicate" ⟨1, 2, 3, 4, .replicate⟩ rfl
  have neg := margins_nonneg_of_args (-1) 0 (-3) 0 "symmetric" ⟨-1, 0, -3, 0, .symmetric⟩ rfl
  ⟨⟨rfl, key.2.2.1 (by decide), key.2.2.2.1 (by decide), key.2.2.2.2 (by decide)⟩,
   ⟨rfl, neg.1, fun hpos => absurd (neg.2.1.1.mp hpos) (by decide)⟩⟩

/-- C8: forward/adjoint arity pairing: for every `Pad2dOperator`,
`getNumInputsForward() == getNumOutputsAdjoint()` and
`getNumOutputsForward() == getNumInputsAdjoint()`. -/
theorem arity_pairing (op : Pad2dOperator) :
    op.getNumInputsForward = op.getNumOutputsAdjoint
    ∧ op.getNumOutputsForward = op.getNumInputsAdjoint :=
  ⟨rfl, rfl⟩

/-- C9: the configuration is immutable after construction.  Each query member
function hands the object back unchanged; so after any sequence of calls of
`paddingX`, `paddingY` and the four `getNum*` functions the five fields are
what they were, `paddingX()` and `paddingY()` return what they returned right
after construction, and the stored margins are the constructor arguments
verbatim. -/
theorem queries_preserve_configuration (left right top bottom : Int) (mode : String)
    (op : Pad2dOperator) (qs : List Query)
    (h : Pad2dOperator.construct left right top bottom mode = .ok op) :
    (∀ q : Query, (op.call q).2 = op)
    ∧ Pad2dOperator.callAll qs op = op
    ∧ (Pad2dOperator.callAll qs op).paddingX = op.paddingX
    ∧ (Pad2dOperator.callAll qs op).paddingY = op.paddingY
    ∧ ((Pad2dOperator.callAll qs op).left_ = left
      ∧ (Pad2dOperator.callAll qs op).right_ = right
      ∧ (Pad2dOperator.callAll qs op).top_ = top
      ∧ (Pad2dOperator.callAll qs op).bottom_ = bottom)
    ∧ (Pad2dOperator.callAll qs op).mode_ = op.mode_ := by
  have hq : ∀ q : Query, (op.call q).2 = op := fun q => by cases q <;> rfl
  have hall := callAll_eq qs op
  refine ⟨hq, hall, ?_, ?_, ?_, ?_⟩
  · rw [hall]
  · rw [hall]
  · rw [hall]
    exact construct_ok_fields left right top bottom mode op h
  · rw [hall]

/-- Witness for C9: an operator with margins `(1, 2, 3, 4)` in `symmetric`
mode, queried six times. -/
theorem queries_preserve_configuration_witness :
    Pad2dOperator.construct 1 2 3 4 "symmetric" = .ok ⟨1, 2, 3, 4, .symmetric⟩
    ∧ Pad2dOperator.callAll
        [.paddingX, .getNumInputsForward, .paddingY, .getNumOutputsAdjoint,
         .getNumOutputsForward, .getNumInputsAdjoint]
        ⟨1, 2, 3, 4, .symmetric⟩ = ⟨1, 2, 3, 4, .symmetric⟩ :=
  have key := queries_preserve_configuration 1 2 3 4 "symmetric" ⟨1, 2, 3, 4, .symmetric⟩
    [.paddingX, .getNumInputsForward, .paddingY, .getNumOutputsAdjoint,
     .getNumOutputsForward, .getNumInputsAdjoint] rfl
  ⟨rfl, key.2.1⟩

/-- C10 as stated fails: with the non-negative 32-bit margins
`left = right = 2147483647` the `int` sum wraps to `-2`, so `paddingX()` is
negative and smaller than `left` and `right`; likewise `paddingY()` with
`top = bottom = 2147483647`. -/
theorem padding_monotone_counterexample :
    ∃ op, Pad2dOperator.construct 2147483647 2147483647 2147483647 2147483647 "reflect" = .ok op
      ∧ op.paddingX = -2 ∧ op.paddingY = -2
      ∧ ¬ (op.left_ ≤ op.paddingX) ∧ ¬ (op.right_ ≤ op.paddingX)
      ∧ ¬ (op.top_ ≤ op.paddingY) ∧ ¬ (op.bottom_ ≤ op.paddingY)
      ∧ ¬ (0 ≤ op.paddingX) ∧ ¬ (0 ≤ op.paddingY) :=
  ⟨⟨2147483647, 2147483647, 2147483647, 2147483647, .reflect⟩, rfl,
    by decide, by decide, by decide, by decide, by decide, by decide, by decide, by decide⟩

/-- C10, amended: for an operator constructed with margins that are
non-negative 32-bit ints, `paddingX() >= left`, `paddingX() >= right` and
`paddingX() >= 0` hold exactly when `left + right <= 2^31 - 1` (the `int` sum
does not wrap), and `paddingY() >= top`, `paddingY() >= bottom` and
`paddingY() >= 0` hold exactly when `top + bottom <= 2^31 - 1`. -/
theorem padding_monotone_iff_no_wrap (left right top bottom : Int) (mode : String)
    (op : Pad2dOperator)
    (h : Pad2dOperator.construct left right top bottom mode = .ok op)
    (hl : 0 ≤ left ∧ left ≤ INT_MAX) (hr : 0 ≤ right ∧ right ≤ INT_MAX)
    (ht : 0 ≤ top ∧ top ≤ INT_MAX) (hb : 0 ≤ bottom ∧ bottom ≤ INT_MAX) :
    ((left ≤ op.paddingX ∧ right ≤ op.paddingX ∧ 0 ≤ op.paddingX)
        ↔ left + right ≤ INT_MAX)
    ∧ ((top ≤ op.paddingY ∧ bottom ≤ op.paddingY ∧ 0 ≤ op.paddingY)
        ↔ top + bottom ≤ INT_MAX) := by
  obtain ⟨e1, e2, e3, e4⟩ := construct_ok_fields left right top bottom mode op h
  unfold INT_MAX at hl hr ht hb ⊢
  unfold Pad2dOperator.paddingX Pad2dOperator.paddingY addInt32 wrapInt32
  rw [e1, e2, e3, e4]
  constructor <;> constructor <;> intro hh <;> omega

/-- Witness for C10, amended: margins `(1, 2, 3, 4)` in `reflect` mode. -/
theorem padding_monotone_iff_no_wrap_witness :
    Pad2dOperator.construct 1 2 3 4 "reflect" = .ok ⟨1, 2, 3, 4, .reflect⟩
    ∧ (1 ≤ (Pad2dOperator.mk 1 2 3 4 .reflect).paddingX
        ∧ 2 ≤ (Pad2dOperator.mk 1 2 3 4 .reflect).paddingX
        ∧ 0 ≤ (Pad2dOperator.mk 1 2 3 4 .reflect).paddingX)
    ∧ (3 ≤ (Pad2dOperator.mk 1 2 3 4 .reflect).paddingY
        ∧ 4 ≤ (Pad2dOperator.mk 1 2 3 4 .reflect).paddingY
        ∧ 0 ≤ (Pad2dOperator.mk 1 2 3 4 .reflect).paddingY) :=
  have key := padding_monotone_iff_no_wrap 1 2 3 4 "reflect" ⟨1, 2, 3, 4, .reflect⟩ rfl
    (by decide) (by decide) (by decide) (by decide)
  ⟨rfl, key.1.mpr (by decide), key.2.mpr (by decide)⟩

end optox
